import Mathlib

/-!
Verification of the sitemap crawl / article-scrape pipeline in `main.py`.

The embedding models the pure data flow of the program. External effects
(HTTP responses, the parsed document a response yields, filesystem
outcomes) are inputs: an `Env` record supplies, for each URL, the parsed
document (or `none` for a request failure) and the filesystem outcomes of
the batch writer. All functions below are translated from `main.py`.
-/

namespace Scrape

/-- Python `s.split(sep)` for a one-character separator, over the
character list: keeps empty groups, so splitting the empty list yields
one empty group, exactly as `"".split("-") == [""]`. -/
def splitChars (sep : Char) : List Char → List (List Char)
  | [] => [[]]
  | c :: cs =>
    if c = sep then [] :: splitChars sep cs
    else
      match splitChars sep cs with
      | [] => [[c]]
      | g :: gs => (c :: g) :: gs

/-- Python `s.split(sep)` for a one-character separator. -/
def pySplit (s : String) (sep : Char) : List String :=
  (splitChars sep s.toList).map String.mk

/-- Python `s.replace(".xml", "")`: scan left to right, removing every
(non-overlapping) occurrence of `.xml`. -/
def removeXml : List Char → List Char
  | '.' :: 'x' :: 'm' :: 'l' :: rest => removeXml rest
  | c :: rest => c :: removeXml rest
  | [] => []

/-- Python `s.replace(".xml", "")` on strings. -/
def pyReplaceXml (s : String) : String :=
  String.mk (removeXml s.toList)

/-- Python `s.strip()`: drop leading and trailing whitespace. -/
def pyStrip (cs : List Char) : List Char :=
  ((cs.dropWhile Char.isWhitespace).reverse.dropWhile Char.isWhitespace).reverse

/-- Digits of a decimal literal folded into a natural number. -/
def digitsToNat (cs : List Char) : Nat :=
  cs.foldl (fun n c => 10 * n + (c.toNat - 48)) 0

/-- Semantics of Python `int(s)` on a string `s` (the decimal case):
surrounding whitespace is stripped, an optional single sign is allowed,
and the remainder must be one or more digits; otherwise `ValueError`
(modelled as `none`). -/
def pyIntOfString (s : String) : Option Int :=
  match pyStrip s.toList with
  | [] => none
  | c :: rest =>
    let ds := if c = '-' ∨ c = '+' then rest else c :: rest
    if ds ≠ [] ∧ ds.all Char.isDigit then
      some (if c = '-' then -(digitsToNat ds : Int) else (digitsToNat ds : Int))
    else none

/-- A JSON value sitting under the `word_count` key of the metadata
object: either a JSON number (Python `int` succeeds and returns it) or a
JSON string (Python `int` parses it or raises `ValueError`). -/
inductive WCVal where
  | num (n : Int)
  | str (s : String)
deriving DecidableEq, Repr

/-- Python `int(v)` on a `word_count` value. -/
def pyInt : WCVal → Option Int
  | .num n => some n
  | .str s => pyIntOfString s

/-- The JSON object parsed from the `tawsiyat-metadata` script element
(`json.loads(script.string)` in `ArticleScraper.scrape`). Each field is
`none` when the key is absent, mirroring `metadata.get(key, default)`. -/
structure Metadata where
  postid : Option String := none
  title : Option String := none
  keywords : Option String := none
  thumbnail : Option String := none
  published_time : Option String := none
  last_updated : Option String := none
  author : Option String := none
  video_duration : Option String := none
  word_count : Option WCVal := none
  description : Option String := none
  lang : Option String := none
  classes : Option (List String) := none
  lite_url : Option String := none
deriving DecidableEq, Repr

/-- The metadata object with every key missing: `{}`. -/
def emptyMetadata : Metadata := {}

/-- The `Article` dataclass of `main.py`. -/
structure Article where
  url : String
  post_id : String
  title : String
  keywords : List String
  thumbnail : String
  publication_date : String
  last_updated_date : String
  author : String
  content : String
  video_duration : String
  word_count : Int
  description : String
  lang : String
  classes : List String
  lite_url : String
deriving DecidableEq, Repr

/-- A fetched article page after `BeautifulSoup` parsing: the metadata
object of the `tawsiyat-metadata` script element (`none` when the
element is absent, in which case the code uses `{}`), and the `p.text`
of every paragraph element in document order. -/
structure Page where
  metadata : Option Metadata
  paragraphs : List String
deriving DecidableEq, Repr

/-- Body of `ArticleScraper.scrape` after a successful fetch, from line
70 on: build `full_text` by appending the text of each paragraph plus a
newline, then construct the `Article` from `metadata.get` lookups.
`int(metadata.get("word_count", 0))` raising `ValueError` is caught by
the blanket `except` and the method returns `None` (modelled `none`). -/
def scrape (article_url : String) (page : Page) : Option Article :=
  let metadata := page.metadata.getD emptyMetadata
  let full_text := page.paragraphs.foldl (fun acc p => acc ++ p ++ "\n") ""
  match pyInt (metadata.word_count.getD (.num 0)) with
  | none => none
  | some wc => some {
      url := article_url
      post_id := metadata.postid.getD ""
      title := metadata.title.getD ""
      keywords := pySplit (metadata.keywords.getD "") ' '
      thumbnail := metadata.thumbnail.getD ""
      publication_date := metadata.published_time.getD ""
      last_updated_date := metadata.last_updated.getD ""
      author := metadata.author.getD ""
      content := full_text
      video_duration := metadata.video_duration.getD ""
      word_count := wc
      description := metadata.description.getD ""
      lang := metadata.lang.getD ""
      classes := metadata.classes.getD []
      lite_url := metadata.lite_url.getD "" }

/-! ## Sitemap parsing (`SitemapParser` / BeautifulSoup) -/

/-- A parsed markup document node, the shape `BeautifulSoup` hands back:
an element with a tag name and children, or a text node. `lxml` parsing
is tolerant, so parsing any byte string (malformed or empty included)
yields such a tree and never raises. -/
inductive Node where
  | elem (tag : String) (children : List Node)
  | text (s : String)

mutual
/-- BeautifulSoup `.text` of a node: concatenation of all descendant
text, in document order. -/
def nodeText : Node → String
  | .elem _ cs => nodeTextList cs
  | .text s => s

/-- `.text` concatenated over a list of sibling nodes. -/
def nodeTextList : List Node → String
  | [] => ""
  | n :: ns => nodeText n ++ nodeTextList ns
end

mutual
/-- BeautifulSoup `find_all(tag)`: every element with the given tag in
the subtree, in document order (an element precedes its descendants). -/
def findAll (tag : String) : Node → List Node
  | .elem t cs => (if t = tag then [Node.elem t cs] else []) ++ findAllList tag cs
  | .text _ => []

/-- `find_all` over a list of sibling nodes. -/
def findAllList (tag : String) : List Node → List Node
  | [] => []
  | n :: ns => findAll tag n ++ findAllList tag ns
end

/-- `[loc.text for loc in soup.find_all("loc")]` — the shared body of
`get_monthly_sitemaps` and `get_article_urls` after a successful fetch
(`main.py` lines 38-39 and 52-53). -/
def parseLocations (doc : Node) : List String :=
  (findAll "loc" doc).map nodeText

mutual
/-- Spec-side restatement (for the refinement claim about
`parseLocations`): collect, by direct recursion, the text content of
each `<loc>` element in document order. -/
def locTexts : Node → List String
  | .elem t cs => (if t = "loc" then [nodeTextList cs] else []) ++ locTextsList cs
  | .text _ => []

/-- `locTexts` over a list of sibling nodes. -/
def locTextsList : List Node → List String
  | [] => []
  | n :: ns => locTexts n ++ locTextsList ns
end

/-! ## The `tenacity` retry decorator -/

/-- One attempt of a decorated body: it returns a value or raises. -/
inductive Attempt (α : Type) where
  | ok (a : α)
  | exc
deriving DecidableEq, Repr

/-- `tenacity.retry(stop=stop_after_attempt(maxA), ...)` semantics: run
the body; when it raises, rerun it, up to `maxA` attempts in total.
Returns the value of the body (`none` when every attempt raised, in which
case tenacity re-raises past the decorator) together with the number of
attempts actually made. `fuel` counts attempts remaining, `attempt` is
the 1-based number of the current attempt. -/
def retryRun {α : Type} (body : Nat → Attempt α) : Nat → Nat → Option α × Nat
  | 0, attempt => (none, attempt - 1)
  | fuel + 1, attempt =>
    match body attempt with
    | .ok a => (some a, attempt)
    | .exc => retryRun body fuel (attempt + 1)

/-- `wait_exponential(multiplier=1, min=2, max=10)`: the sleep tenacity
would insert after attempt number `attempt`, in seconds. -/
def waitExponential (attempt : Nat) : Nat :=
  min 10 (max 2 (2 ^ attempt))

/-- Outcome of one `requests.get` + `raise_for_status`: a parsed
document on a 2xx response, or a raised `requests.RequestException`
(transport error, timeout, or non-2xx status). -/
inductive FetchOutcome where
  | ok (doc : Node)
  | requestExc

/-- The undecorated body of `SitemapParser.get_monthly_sitemaps`
(`main.py` lines 33-44), as a function of the outcome of the HTTP
request on each attempt: a `RequestException` is caught by the
`except` clause, which logs and returns `[]` — it does not re-raise,
so the decorator above never sees it. -/
def get_monthly_sitemaps_body (fetch : Nat → FetchOutcome) (attempt : Nat) :
    Attempt (List String) :=
  match fetch attempt with
  | .ok doc => .ok (parseLocations doc)
  | .requestExc => .ok []

/-- `get_monthly_sitemaps` with its `@retry(stop=stop_after_attempt(3),
wait=wait_exponential(multiplier=1, min=2, max=10))` decorator:
result (if any) and the number of HTTP attempts made. -/
def get_monthly_sitemaps (fetch : Nat → FetchOutcome) : Option (List String) × Nat :=
  retryRun (get_monthly_sitemaps_body fetch) 3 1

/-! ## Month key derivation (`main.py` line 145) -/

/-- `sitemap_url.split("-")[-2], sitemap_url.split("-")[-1].replace(".xml", "")`:
`none` models the `IndexError` raised by `[-2]` when the split yields a
single token (Python `str.replace` removes every occurrence, exactly as
`String.replace` does). -/
def monthKeyOfUrl (url : String) : Option (String × String) :=
  let toks := pySplit url '-'
  if toks.length < 2 then none
  else some (toks.getD (toks.length - 2) "",
             pyReplaceXml (toks.getD (toks.length - 1) ""))

/-- Strip one `.xml` suffix, if present. -/
def dropXmlSuffix (s : String) : String :=
  match s.toList.reverse with
  | 'l' :: 'm' :: 'x' :: '.' :: rest => String.mk rest.reverse
  | _ => s

/-- Spec-side restatement of the claimed month-key derivation: year is
the second-to-last dash-delimited token, month is the last token with
the `.xml` suffix stripped, no further normalization. -/
def monthKeyClaim (url : String) : Option (String × String) :=
  let toks := pySplit url '-'
  if toks.length < 2 then none
  else some (toks.getD (toks.length - 2) "",
             dropXmlSuffix (toks.getD (toks.length - 1) ""))

/-- Spec-side restatement of the amended derivation: the last two
dash-delimited tokens, the month token with every occurrence of `.xml`
removed (Python `str.replace` semantics). -/
def monthKeyAmended (url : String) : Option (String × String) :=
  match (pySplit url '-').reverse with
  | m :: y :: _ => some (y, pyReplaceXml m)
  | _ => none

/-! ## Batch writer (`FileUtility.save_to_json`) and orchestrator (`main`) -/

/-- Result of one `FileUtility.save_to_json` call. `os.makedirs` runs
before the `try` block, so a directory-creation failure raises out of
the function (`raised`); a failure of `open`/`json.dump` is caught
inside the `try`, logged, and the batch is lost (`dropped`). On
success the dump keeps `[article.__dict__ for article in articles if
article]`; every accumulated `Article` is truthy, so the batch is
written as-is. -/
inductive SaveResult where
  | written (year month : String) (batch : List Article)
  | dropped
  | raised
deriving DecidableEq, Repr

/-- The external world of one run: the parsed document the fetch of each URL
produces (`none` = total request failure, which the code turns into
`[]` or `None`), and the filesystem outcomes of the batch writer. -/
structure Env where
  indexDoc : Option Node
  monthlyDoc : String → Option Node
  articlePage : String → Option Page
  makedirsOk : Bool
  writeOk : Bool

/-- `FileUtility.save_to_json` (`main.py` lines 106-116). -/
def save_to_json (env : Env) (articles : List Article) (year month : String) :
    SaveResult :=
  if env.makedirsOk = false then .raised
  else if env.writeOk = false then .dropped
  else .written year month articles

/-- `sitemap_parser.get_article_urls(sitemap_url)` as seen by `main`:
locations of the fetched monthly sitemap, `[]` on request failure. -/
def get_article_urls (env : Env) (sm : String) : List String :=
  (env.monthlyDoc sm).elim [] parseLocations

/-- `sitemap_parser.get_monthly_sitemaps()` as seen by `main`:
locations of the fetched index, `[]` on request failure. -/
def get_monthly_sitemaps_result (env : Env) : List String :=
  (env.indexDoc).elim [] parseLocations

/-- State of the inner loop of `main`: `article_count`, the `articles`
accumulator, and (model bookkeeping) the trace of article-page fetches
issued, each paired with `article_count` at the moment it was issued. -/
structure InnerState where
  count : Nat
  acc : List Article
  fetches : List (String × Nat)
deriving DecidableEq, Repr

/-- The inner loop of `main` (`main.py` lines 131-141): for each article URL,
break once `article_count >= max_articles`; otherwise fetch and scrape;
on success append the article and increment the counter. -/
def articleLoop (env : Env) (cap : Nat) : List String → InnerState → InnerState
  | [], st => st
  | url :: rest, st =>
    if st.count ≥ cap then st
    else
      match (env.articlePage url).bind (scrape url) with
      | none => articleLoop env cap rest ⟨st.count, st.acc, st.fetches ++ [(url, st.count)]⟩
      | some a =>
          articleLoop env cap rest ⟨st.count + 1, st.acc ++ [a], st.fetches ++ [(url, st.count)]⟩

/-- One `save_to_json` call as recorded in the run trace: the monthly
sitemap it flushes, `article_count` when the processing of that sitemap
began, the derived year/month, and the batch handed to the writer. -/
structure FlushEv where
  sitemap : String
  startCount : Nat
  year : String
  month : String
  batch : List Article
deriving DecidableEq, Repr

/-- Result of a run of `main`: final `article_count`, final accumulator,
the trace of `save_to_json` calls (`flushes`) and of successful writes
(`written`), the trace of article fetches, and whether an uncaught
exception propagated out of the loop (`err`). -/
structure RunResult where
  count : Nat
  acc : List Article
  flushes : List FlushEv
  written : List FlushEv
  fetches : List (String × Nat)
  err : Bool
deriving DecidableEq, Repr

/-- The outer loop of `main` (`main.py` lines 126-147): for each monthly
sitemap, break once the cap is reached; run the inner loop; if the
accumulator is non-empty, derive the month key (an `IndexError`
aborts the run), call `save_to_json` (a raised directory-creation
failure aborts the run), and clear the accumulator. -/
def sitemapLoop (env : Env) (cap : Nat) :
    List String → Nat → List Article → List FlushEv → List FlushEv →
    List (String × Nat) → RunResult
  | [], count, arts, fls, wr, fet => ⟨count, arts, fls, wr, fet, false⟩
  | sm :: rest, count, arts, fls, wr, fet =>
    if count ≥ cap then ⟨count, arts, fls, wr, fet, false⟩
    else
      let st := articleLoop env cap (get_article_urls env sm) ⟨count, arts, fet⟩
      if st.acc.isEmpty then
        sitemapLoop env cap rest st.count st.acc fls wr st.fetches
      else
        match monthKeyOfUrl sm with
        | none => ⟨st.count, st.acc, fls, wr, st.fetches, true⟩
        | some (y, m) =>
          let ev : FlushEv := ⟨sm, count, y, m, st.acc⟩
          match save_to_json env st.acc y m with
          | .raised => ⟨st.count, st.acc, fls ++ [ev], wr, st.fetches, true⟩
          | .dropped => sitemapLoop env cap rest st.count [] (fls ++ [ev]) wr st.fetches
          | .written _ _ _ =>
              sitemapLoop env cap rest st.count [] (fls ++ [ev]) (wr ++ [ev]) st.fetches

/-- A whole run of `main` with a given global cap. -/
def runMain (env : Env) (cap : Nat) : RunResult :=
  sitemapLoop env cap (get_monthly_sitemaps_result env) 0 [] [] [] []

/-- The hard ceiling on successful articles (`max_articles`). -/
def max_articles : Nat := 10000

/-- The articles the inner loop collects for one monthly sitemap when
started with an empty accumulator and counter value `c0`. -/
def monthScrapes (env : Env) (cap : Nat) (sm : String) (c0 : Nat) : List Article :=
  (articleLoop env cap (get_article_urls env sm) ⟨c0, [], []⟩).acc

/-- Total number of articles across a trace of flush events. -/
def flushSum (fls : List FlushEv) : Nat :=
  (fls.map (fun f => f.batch.length)).sum

/-- Spec-side restatement of the `content` field actually built by the
code: the text of each paragraph followed by a newline, concatenated in
document order (so the result carries a trailing newline). -/
def paragraphsJoined (ps : List String) : String :=
  ps.foldr (fun p r => p ++ "\n" ++ r) ""

/-! ## Concrete fixtures for counterexamples and witnesses -/

/-- A sitemap document whose `<loc>` entries are the given URLs. -/
def locDoc (urls : List String) : Node :=
  .elem "urlset" (urls.map (fun u => .elem "loc" [.text u]))

/-- An article page whose metadata block is present but `{}`. -/
def pageEmptyMeta : Page := ⟨some emptyMetadata, []⟩

/-- Metadata carrying only a non-numeric `word_count`. -/
def mdBadWC : Metadata := { word_count := some (.str "12a3") }

/-- Metadata carrying only `word_count: "5"`. -/
def mdWC5 : Metadata := { word_count := some (.str "5") }

/-- The article the scraper produces from a page with metadata `mdWC5`
and one paragraph `"x"`, at the given URL. -/
def artWC5 (u : String) : Article :=
  { url := u, post_id := "", title := "", keywords := [""], thumbnail := ""
    publication_date := "", last_updated_date := "", author := ""
    content := "x\n", video_duration := "", word_count := 5
    description := "", lang := "", classes := [], lite_url := "" }

/-- Environment for the write-failure counterexample: an index of two
monthly sitemaps, one article page per month, every scrape succeeds,
but creating the output directory fails. -/
def env8 : Env where
  indexDoc := some (locDoc ["a-2024-09.xml", "a-2024-10.xml"])
  monthlyDoc := fun sm =>
    if sm = "a-2024-09.xml" then some (locDoc ["u1"]) else some (locDoc ["u2"])
  articlePage := fun _ => some ⟨some mdWC5, ["x"]⟩
  makedirsOk := false
  writeOk := true

/-- Environment where everything works: an index of two monthly
sitemaps; the first month has two article URLs of which the second
suffers a fetch failure, the second month has one article URL. -/
def envOK : Env where
  indexDoc := some (locDoc ["a-2024-09.xml", "a-2024-10.xml"])
  monthlyDoc := fun sm =>
    if sm = "a-2024-09.xml" then some (locDoc ["u1", "u2"]) else some (locDoc ["u3"])
  articlePage := fun u => if u = "u2" then none else some ⟨some mdWC5, ["x"]⟩
  makedirsOk := true
  writeOk := true

/-- The article the scraper produces from a page with metadata `mdWC5`
and no paragraphs, at URL `u2`. -/
def artNoParas : Article :=
  { url := "u2", post_id := "", title := "", keywords := [""], thumbnail := ""
    publication_date := "", last_updated_date := "", author := ""
    content := "", video_duration := "", word_count := 5
    description := "", lang := "", classes := [], lite_url := "" }

/-- Environment with a single monthly sitemap whose only article page
carries a non-numeric `word_count`. -/
def env3 : Env where
  indexDoc := some (locDoc ["a-2024-09.xml"])
  monthlyDoc := fun _ => some (locDoc ["u1"])
  articlePage := fun _ => some ⟨some mdBadWC, []⟩
  makedirsOk := true
  writeOk := true

/-- The second flush event of `runMain envOK 10000`. -/
def fOK : FlushEv := ⟨"a-2024-10.xml", 1, "2024", "10", [artWC5 "u3"]⟩

/-! ## Helper lemmas -/

theorem foldl_newline (l : List String) (acc : String) :
    l.foldl (fun a p => a ++ p ++ "\n") acc = acc ++ paragraphsJoined l := by
  induction l generalizing acc with
  | nil => simp [paragraphsJoined]
  | cons p rest ih =>
    rw [List.foldl_cons, ih]
    simp [paragraphsJoined, String.append_assoc]

mutual
theorem findAll_map_text : ∀ d : Node, (findAll "loc" d).map nodeText = locTexts d
  | .elem t cs => by
    simp only [findAll, locTexts, List.map_append]
    rw [findAllList_map_text cs]
    by_cases h : t = "loc"
    · subst h; simp [nodeText]
    · simp [h]
  | .text s => by simp [findAll, locTexts]

theorem findAllList_map_text :
    ∀ l : List Node, (findAllList "loc" l).map nodeText = locTextsList l
  | [] => by simp [findAllList, locTextsList]
  | n :: ns => by
    simp only [findAllList, locTextsList, List.map_append]
    rw [findAll_map_text n, findAllList_map_text ns]
end

theorem getD_last_rev {α : Type} (d m : α) (l t : List α) (h : l.reverse = m :: t) :
    l.getD (l.length - 1) d = m := by
  have hl : l = t.reverse ++ [m] := by
    have h2 := congrArg List.reverse h
    simpa using h2
  subst hl
  rw [List.length_append, List.length_reverse]
  simp only [List.length_singleton, Nat.add_sub_cancel]
  rw [List.getD_append_right _ _ _ _ (by simp)]
  simp

theorem getD_penult_rev {α : Type} (d m y : α) (l t : List α) (h : l.reverse = m :: y :: t) :
    l.getD (l.length - 2) d = y := by
  have hl : l = t.reverse ++ [y, m] := by
    have h2 := congrArg List.reverse h
    simpa using h2
  subst hl
  rw [List.length_append, List.length_reverse]
  have hx : t.length + [y, m].length - 2 = t.length := by simp
  rw [hx]
  rw [List.getD_append_right _ _ _ _ (by simp)]
  simp

theorem articleLoop_cons_ge (env : Env) (cap : Nat) (url : String)
    (rest : List String) (st : InnerState) (h : cap ≤ st.count) :
    articleLoop env cap (url :: rest) st = st := by
  simp [articleLoop, h]

theorem articleLoop_cons_none (env : Env) (cap : Nat) (url : String)
    (rest : List String) (st : InnerState) (h : ¬ cap ≤ st.count)
    (hb : (env.articlePage url).bind (scrape url) = none) :
    articleLoop env cap (url :: rest) st
      = articleLoop env cap rest ⟨st.count, st.acc, st.fetches ++ [(url, st.count)]⟩ := by
  simp [articleLoop, h, hb]

theorem articleLoop_cons_some (env : Env) (cap : Nat) (url : String)
    (rest : List String) (st : InnerState) (a : Article) (h : ¬ cap ≤ st.count)
    (hb : (env.articlePage url).bind (scrape url) = some a) :
    articleLoop env cap (url :: rest) st
      = articleLoop env cap rest
          ⟨st.count + 1, st.acc ++ [a], st.fetches ++ [(url, st.count)]⟩ := by
  simp [articleLoop, h, hb]

theorem articleLoop_count_mono (env : Env) (cap : Nat) (urls : List String)
    (st : InnerState) : st.count ≤ (articleLoop env cap urls st).count := by
  induction urls generalizing st with
  | nil => simp [articleLoop]
  | cons url rest ih =>
    by_cases h : cap ≤ st.count
    · rw [articleLoop_cons_ge env cap url rest st h]
    · cases hb : (env.articlePage url).bind (scrape url) with
      | none =>
        rw [articleLoop_cons_none env cap url rest st h hb]
        exact ih ⟨st.count, st.acc, st.fetches ++ [(url, st.count)]⟩
      | some a =>
        rw [articleLoop_cons_some env cap url rest st a h hb]
        exact Nat.le_trans (Nat.le_succ _)
          (ih ⟨st.count + 1, st.acc ++ [a], st.fetches ++ [(url, st.count)]⟩)

theorem articleLoop_count_le (env : Env) (cap : Nat) (urls : List String)
    (st : InnerState) (h : st.count ≤ cap) :
    (articleLoop env cap urls st).count ≤ cap := by
  induction urls generalizing st with
  | nil => simpa [articleLoop] using h
  | cons url rest ih =>
    by_cases hc : cap ≤ st.count
    · rw [articleLoop_cons_ge env cap url rest st hc]; exact h
    · cases hb : (env.articlePage url).bind (scrape url) with
      | none => rw [articleLoop_cons_none env cap url rest st hc hb]; exact ih _ h
      | some a =>
        rw [articleLoop_cons_some env cap url rest st a hc hb]
        exact ih _ (Nat.lt_of_not_le hc)

theorem articleLoop_len (env : Env) (cap : Nat) (urls : List String)
    (st : InnerState) :
    (articleLoop env cap urls st).acc.length + st.count
      = st.acc.length + (articleLoop env cap urls st).count := by
  induction urls generalizing st with
  | nil => simp [articleLoop]
  | cons url rest ih =>
    by_cases h : cap ≤ st.count
    · rw [articleLoop_cons_ge env cap url rest st h]
    · cases hb : (env.articlePage url).bind (scrape url) with
      | none => rw [articleLoop_cons_none env cap url rest st h hb]; exact ih _
      | some a =>
        rw [articleLoop_cons_some env cap url rest st a h hb]
        have h2 := ih ⟨st.count + 1, st.acc ++ [a], st.fetches ++ [(url, st.count)]⟩
        simp at h2 ⊢
        omega

theorem articleLoop_fetches (env : Env) (cap : Nat) (urls : List String)
    (st : InnerState) (h : ∀ p ∈ st.fetches, p.2 < cap) :
    ∀ p ∈ (articleLoop env cap urls st).fetches, p.2 < cap := by
  induction urls generalizing st with
  | nil => simpa [articleLoop] using h
  | cons url rest ih =>
    by_cases hc : cap ≤ st.count
    · rw [articleLoop_cons_ge env cap url rest st hc]; exact h
    · have hlt : st.count < cap := Nat.lt_of_not_le hc
      have h2 : ∀ p ∈ st.fetches ++ [(url, st.count)], p.2 < cap := by
        intro p hp
        rcases List.mem_append.mp hp with hp | hp
        · exact h p hp
        · simp at hp; subst hp; exact hlt
      cases hb : (env.articlePage url).bind (scrape url) with
      | none => rw [articleLoop_cons_none env cap url rest st hc hb]; exact ih _ h2
      | some a => rw [articleLoop_cons_some env cap url rest st a hc hb]; exact ih _ h2

theorem articleLoop_shift (env : Env) (cap : Nat) (urls : List String)
    (c : Nat) (arts : List Article) (fet : List (String × Nat)) :
    articleLoop env cap urls ⟨c, arts, fet⟩ =
      ⟨(articleLoop env cap urls ⟨c, [], []⟩).count,
       arts ++ (articleLoop env cap urls ⟨c, [], []⟩).acc,
       fet ++ (articleLoop env cap urls ⟨c, [], []⟩).fetches⟩ := by
  induction urls generalizing c arts fet with
  | nil => simp [articleLoop]
  | cons url rest ih =>
    by_cases h : cap ≤ c
    · rw [articleLoop_cons_ge env cap url rest _ h, articleLoop_cons_ge env cap url rest _ h]
      simp
    · cases hb : (env.articlePage url).bind (scrape url) with
      | none =>
        rw [articleLoop_cons_none env cap url rest ⟨c, arts, fet⟩ h hb,
            articleLoop_cons_none env cap url rest ⟨c, [], []⟩ h hb]
        rw [ih c arts (fet ++ [(url, c)]), ih c [] ([] ++ [(url, c)])]
        simp
      | some a =>
        rw [articleLoop_cons_some env cap url rest ⟨c, arts, fet⟩ a h hb,
            articleLoop_cons_some env cap url rest ⟨c, [], []⟩ a h hb]
        rw [ih (c + 1) (arts ++ [a]) (fet ++ [(url, c)]),
            ih (c + 1) ([] ++ [a]) ([] ++ [(url, c)])]
        simp

theorem sitemapLoop_nil (env : Env) (cap count : Nat) (arts : List Article)
    (fls wr : List FlushEv) (fet : List (String × Nat)) :
    sitemapLoop env cap [] count arts fls wr fet = ⟨count, arts, fls, wr, fet, false⟩ := rfl

theorem sitemapLoop_cons_ge (env : Env) (cap : Nat) (sm : String) (rest : List String)
    (count : Nat) (arts : List Article) (fls wr : List FlushEv)
    (fet : List (String × Nat)) (h : cap ≤ count) :
    sitemapLoop env cap (sm :: rest) count arts fls wr fet
      = ⟨count, arts, fls, wr, fet, false⟩ := by
  simp [sitemapLoop, h]

theorem sitemapLoop_cons_empty (env : Env) (cap : Nat) (sm : String) (rest : List String)
    (count : Nat) (arts : List Article) (fls wr : List FlushEv)
    (fet : List (String × Nat)) (h : ¬ cap ≤ count)
    (hst : (articleLoop env cap (get_article_urls env sm) ⟨count, arts, fet⟩).acc.isEmpty
            = true) :
    sitemapLoop env cap (sm :: rest) count arts fls wr fet
      = sitemapLoop env cap rest
          (articleLoop env cap (get_article_urls env sm) ⟨count, arts, fet⟩).count
          (articleLoop env cap (get_article_urls env sm) ⟨count, arts, fet⟩).acc
          fls wr
          (articleLoop env cap (get_article_urls env sm) ⟨count, arts, fet⟩).fetches := by
  simp [sitemapLoop, h, hst]

theorem sitemapLoop_cons_keyNone (env : Env) (cap : Nat) (sm : String) (rest : List String)
    (count : Nat) (arts : List Article) (fls wr : List FlushEv)
    (fet : List (String × Nat)) (h : ¬ cap ≤ count)
    (hst : (articleLoop env cap (get_article_urls env sm) ⟨count, arts, fet⟩).acc.isEmpty
            = false)
    (hk : monthKeyOfUrl sm = none) :
    sitemapLoop env cap (sm :: rest) count arts fls wr fet
      = ⟨(articleLoop env cap (get_article_urls env sm) ⟨count, arts, fet⟩).count,
         (articleLoop env cap (get_article_urls env sm) ⟨count, arts, fet⟩).acc,
         fls, wr,
         (articleLoop env cap (get_article_urls env sm) ⟨count, arts, fet⟩).fetches,
         true⟩ := by
  simp [sitemapLoop, h, hst, hk]

theorem sitemapLoop_cons_raised (env : Env) (cap : Nat) (sm : String) (rest : List String)
    (count : Nat) (arts : List Article) (fls wr : List FlushEv)
    (fet : List (String × Nat)) (y m : String) (h : ¬ cap ≤ count)
    (hst : (articleLoop env cap (get_article_urls env sm) ⟨count, arts, fet⟩).acc.isEmpty
            = false)
    (hk : monthKeyOfUrl sm = some (y, m))
    (hsv : save_to_json env
            (articleLoop env cap (get_article_urls env sm) ⟨count, arts, fet⟩).acc y m
           = .raised) :
    sitemapLoop env cap (sm :: rest) count arts fls wr fet
      = ⟨(articleLoop env cap (get_article_urls env sm) ⟨count, arts, fet⟩).count,
         (articleLoop env cap (get_article_urls env sm) ⟨count, arts, fet⟩).acc,
         fls ++ [⟨sm, count, y, m,
                 (articleLoop env cap (get_article_urls env sm) ⟨count, arts, fet⟩).acc⟩],
         wr,
         (articleLoop env cap (get_article_urls env sm) ⟨count, arts, fet⟩).fetches,
         true⟩ := by
  simp [sitemapLoop, h, hst, hk, hsv]

theorem sitemapLoop_cons_dropped (env : Env) (cap : Nat) (sm : String) (rest : List String)
    (count : Nat) (arts : List Article) (fls wr : List FlushEv)
    (fet : List (String × Nat)) (y m : String) (h : ¬ cap ≤ count)
    (hst : (articleLoop env cap (get_article_urls env sm) ⟨count, arts, fet⟩).acc.isEmpty
            = false)
    (hk : monthKeyOfUrl sm = some (y, m))
    (hsv : save_to_json env
            (articleLoop env cap (get_article_urls env sm) ⟨count, arts, fet⟩).acc y m
           = .dropped) :
    sitemapLoop env cap (sm :: rest) count arts fls wr fet
      = sitemapLoop env cap rest
          (articleLoop env cap (get_article_urls env sm) ⟨count, arts, fet⟩).count
          []
          (fls ++ [⟨sm, count, y, m,
                   (articleLoop env cap (get_article_urls env sm) ⟨count, arts, fet⟩).acc⟩])
          wr
          (articleLoop env cap (get_article_urls env sm) ⟨count, arts, fet⟩).fetches := by
  simp [sitemapLoop, h, hst, hk, hsv]

theorem sitemapLoop_cons_written (env : Env) (cap : Nat) (sm : String) (rest : List String)
    (count : Nat) (arts : List Article) (fls wr : List FlushEv)
    (fet : List (String × Nat)) (y m y2 m2 : String) (b : List Article)
    (h : ¬ cap ≤ count)
    (hst : (articleLoop env cap (get_article_urls env sm) ⟨count, arts, fet⟩).acc.isEmpty
            = false)
    (hk : monthKeyOfUrl sm = some (y, m))
    (hsv : save_to_json env
            (articleLoop env cap (get_article_urls env sm) ⟨count, arts, fet⟩).acc y m
           = .written y2 m2 b) :
    sitemapLoop env cap (sm :: rest) count arts fls wr fet
      = sitemapLoop env cap rest
          (articleLoop env cap (get_article_urls env sm) ⟨count, arts, fet⟩).count
          []
          (fls ++ [⟨sm, count, y, m,
                   (articleLoop env cap (get_article_urls env sm) ⟨count, arts, fet⟩).acc⟩])
          (wr ++ [⟨sm, count, y, m,
                  (articleLoop env cap (get_article_urls env sm) ⟨count, arts, fet⟩).acc⟩])
          (articleLoop env cap (get_article_urls env sm) ⟨count, arts, fet⟩).fetches := by
  simp [sitemapLoop, h, hst, hk, hsv]

theorem flushSum_append (fls : List FlushEv) (ev : FlushEv) :
    flushSum (fls ++ [ev]) = flushSum fls + ev.batch.length := by
  simp [flushSum]

theorem sitemapLoop_inv (env : Env) (cap : Nat) (sms : List String)
    (count : Nat) (fls wr : List FlushEv) (fet : List (String × Nat))
    (hc : count ≤ cap) (hsum : flushSum fls = count)
    (hfet : ∀ p ∈ fet, p.2 < cap) :
    (sitemapLoop env cap sms count [] fls wr fet).count ≤ cap ∧
    (∀ p ∈ (sitemapLoop env cap sms count [] fls wr fet).fetches, p.2 < cap) ∧
    ((sitemapLoop env cap sms count [] fls wr fet).err = false →
      (sitemapLoop env cap sms count [] fls wr fet).acc = [] ∧
      flushSum (sitemapLoop env cap sms count [] fls wr fet).flushes
        = (sitemapLoop env cap sms count [] fls wr fet).count) := by
  induction sms generalizing count fls wr fet with
  | nil => exact ⟨hc, hfet, fun _ => ⟨rfl, hsum⟩⟩
  | cons sm rest ih =>
    by_cases h : cap ≤ count
    · rw [sitemapLoop_cons_ge env cap sm rest count [] fls wr fet h]
      exact ⟨hc, hfet, fun _ => ⟨rfl, hsum⟩⟩
    · have hmono := articleLoop_count_mono env cap (get_article_urls env sm) ⟨count, [], fet⟩
      have hle := articleLoop_count_le env cap (get_article_urls env sm) ⟨count, [], fet⟩ hc
      have hlen := articleLoop_len env cap (get_article_urls env sm) ⟨count, [], fet⟩
      have hfet2 := articleLoop_fetches env cap (get_article_urls env sm) ⟨count, [], fet⟩ hfet
      have hlen2 : (articleLoop env cap (get_article_urls env sm) ⟨count, [], fet⟩).acc.length
          + count = (articleLoop env cap (get_article_urls env sm) ⟨count, [], fet⟩).count := by
        simpa using hlen
      cases hie : (articleLoop env cap (get_article_urls env sm) ⟨count, [], fet⟩).acc.isEmpty with
      | true =>
        rw [sitemapLoop_cons_empty env cap sm rest count [] fls wr fet h hie]
        have hacc : (articleLoop env cap (get_article_urls env sm) ⟨count, [], fet⟩).acc = [] :=
          List.isEmpty_iff.mp hie
        rw [hacc]
        have hcnt : (articleLoop env cap (get_article_urls env sm) ⟨count, [], fet⟩).count
            = count := by
          rw [hacc] at hlen2; simpa using hlen2.symm
        exact ih _ fls wr _ hle (by rw [hcnt]; exact hsum) hfet2
      | false =>
        cases hk : monthKeyOfUrl sm with
        | none =>
          rw [sitemapLoop_cons_keyNone env cap sm rest count [] fls wr fet h hie hk]
          exact ⟨hle, hfet2, by intro hcontra; cases hcontra⟩
        | some ym =>
          obtain ⟨y, m⟩ := ym
          have hsum2 : flushSum (fls ++ [⟨sm, count, y, m,
              (articleLoop env cap (get_article_urls env sm) ⟨count, [], fet⟩).acc⟩])
              = (articleLoop env cap (get_article_urls env sm) ⟨count, [], fet⟩).count := by
            rw [flushSum_append, hsum]
            show count + (articleLoop env cap (get_article_urls env sm)
              ⟨count, [], fet⟩).acc.length
              = (articleLoop env cap (get_article_urls env sm) ⟨count, [], fet⟩).count
            omega
          cases hsv : save_to_json env
              (articleLoop env cap (get_article_urls env sm) ⟨count, [], fet⟩).acc y m with
          | raised =>
            rw [sitemapLoop_cons_raised env cap sm rest count [] fls wr fet y m h hie hk hsv]
            exact ⟨hle, hfet2, by intro hcontra; cases hcontra⟩
          | dropped =>
            rw [sitemapLoop_cons_dropped env cap sm rest count [] fls wr fet y m h hie hk hsv]
            exact ih _ _ wr _ hle hsum2 hfet2
          | written y2 m2 b =>
            rw [sitemapLoop_cons_written env cap sm rest count [] fls wr fet y m y2 m2 b
                h hie hk hsv]
            exact ih _ _ _ _ hle hsum2 hfet2

theorem sitemapLoop_flushes (env : Env) (cap : Nat) (sms : List String)
    (count : Nat) (fls wr : List FlushEv) (fet : List (String × Nat))
    (hfls : ∀ f ∈ fls, f.batch ≠ [] ∧ f.batch = monthScrapes env cap f.sitemap f.startCount) :
    ∀ f ∈ (sitemapLoop env cap sms count [] fls wr fet).flushes,
      f.batch ≠ [] ∧ f.batch = monthScrapes env cap f.sitemap f.startCount := by
  induction sms generalizing count fls wr fet with
  | nil => exact hfls
  | cons sm rest ih =>
    by_cases h : cap ≤ count
    · rw [sitemapLoop_cons_ge env cap sm rest count [] fls wr fet h]
      exact hfls
    · have hshift := articleLoop_shift env cap (get_article_urls env sm) count [] fet
      have hacc : (articleLoop env cap (get_article_urls env sm) ⟨count, [], fet⟩).acc
          = monthScrapes env cap sm count := by
        rw [hshift]; simp [monthScrapes]
      cases hie : (articleLoop env cap (get_article_urls env sm) ⟨count, [], fet⟩).acc.isEmpty with
      | true =>
        rw [sitemapLoop_cons_empty env cap sm rest count [] fls wr fet h hie]
        rw [List.isEmpty_iff.mp hie]
        exact ih _ fls wr _ hfls
      | false =>
        have hne : (articleLoop env cap (get_article_urls env sm) ⟨count, [], fet⟩).acc ≠ [] := by
          intro hcontra
          rw [hcontra] at hie
          cases hie
        cases hk : monthKeyOfUrl sm with
        | none =>
          rw [sitemapLoop_cons_keyNone env cap sm rest count [] fls wr fet h hie hk]
          exact hfls
        | some ym =>
          obtain ⟨y, m⟩ := ym
          have hfls2 : ∀ f ∈ fls ++ [(⟨sm, count, y, m,
              (articleLoop env cap (get_article_urls env sm) ⟨count, [], fet⟩).acc⟩ : FlushEv)],
              f.batch ≠ [] ∧ f.batch = monthScrapes env cap f.sitemap f.startCount := by
            intro f hf
            rcases List.mem_append.mp hf with hf | hf
            · exact hfls f hf
            · simp at hf
              subst hf
              exact ⟨hne, hacc⟩
          cases hsv : save_to_json env
              (articleLoop env cap (get_article_urls env sm) ⟨count, [], fet⟩).acc y m with
          | raised =>
            rw [sitemapLoop_cons_raised env cap sm rest count [] fls wr fet y m h hie hk hsv]
            exact hfls2
          | dropped =>
            rw [sitemapLoop_cons_dropped env cap sm rest count [] fls wr fet y m h hie hk hsv]
            exact ih _ _ wr _ hfls2
          | written y2 m2 b =>
            rw [sitemapLoop_cons_written env cap sm rest count [] fls wr fet y m y2 m2 b
                h hie hk hsv]
            exact ih _ _ _ _ hfls2

theorem monthKey_some_of_len (url : String) (hlen : 2 ≤ (pySplit url '-').length) :
    ∃ y m, monthKeyOfUrl url = some (y, m) := by
  unfold monthKeyOfUrl
  rw [if_neg (by omega)]
  exact ⟨_, _, rfl⟩

theorem save_ne_raised (env : Env) (arts : List Article) (y m : String)
    (hmk : env.makedirsOk = true) :
    save_to_json env arts y m ≠ .raised := by
  unfold save_to_json
  rw [hmk]
  by_cases hw : env.writeOk = false <;> simp [hw]

theorem sitemapLoop_no_err (env : Env) (cap : Nat) (sms : List String)
    (count : Nat) (fls wr : List FlushEv) (fet : List (String × Nat))
    (hmk : env.makedirsOk = true)
    (hsms : ∀ sm ∈ sms, 2 ≤ (pySplit sm '-').length) :
    (sitemapLoop env cap sms count [] fls wr fet).err = false := by
  induction sms generalizing count fls wr fet with
  | nil => rfl
  | cons sm rest ih =>
    have hsm := hsms sm (List.mem_cons_self sm rest)
    have hrest : ∀ s ∈ rest, 2 ≤ (pySplit s '-').length :=
      fun s hs => hsms s (List.mem_cons_of_mem sm hs)
    by_cases h : cap ≤ count
    · rw [sitemapLoop_cons_ge env cap sm rest count [] fls wr fet h]
    · cases hie : (articleLoop env cap (get_article_urls env sm) ⟨count, [], fet⟩).acc.isEmpty with
      | true =>
        rw [sitemapLoop_cons_empty env cap sm rest count [] fls wr fet h hie]
        rw [List.isEmpty_iff.mp hie]
        exact ih _ fls wr _ hrest
      | false =>
        obtain ⟨y, m, hk⟩ := monthKey_some_of_len sm hsm
        cases hsv : save_to_json env
            (articleLoop env cap (get_article_urls env sm) ⟨count, [], fet⟩).acc y m with
        | raised => exact absurd hsv (save_ne_raised env _ y m hmk)
        | dropped =>
          rw [sitemapLoop_cons_dropped env cap sm rest count [] fls wr fet y m h hie hk hsv]
          exact ih _ _ wr _ hrest
        | written y2 m2 b =>
          rw [sitemapLoop_cons_written env cap sm rest count [] fls wr fet y m y2 m2 b
              h hie hk hsv]
          exact ih _ _ _ _ hrest

/-! ## Claims -/

/-- C1, counterexample: on a page whose metadata block is present but
empty, extraction succeeds, yet the `keywords` field is the one-element
sequence containing the empty string — not the empty sequence the claim
states — because `metadata.get("keywords", "").split(" ")` applied to
the default empty string yields `[""]`. -/
theorem c1_counterexample :
    (scrape "u" pageEmptyMeta).map Article.keywords = some [""] ∧
    (scrape "u" pageEmptyMeta).map Article.keywords ≠ some [] := by
  constructor
  · rfl
  · decide

/-- C1, amended: for every article page whose metadata block is present
but missing all keys, `extract` succeeds and produces an Article whose
postID, title, thumbnail, publicationDate, lastUpdatedDate, author,
videoDuration, description, lang and liteURL are the empty string,
whose wordCount is 0 and whose classes is the empty sequence; keywords,
however, is the one-element sequence containing the empty string. -/
theorem c1_empty_metadata_defaults (url : String) (page : Page)
    (h : page.metadata = some emptyMetadata) :
    ∃ a, scrape url page = some a ∧ a.post_id = "" ∧ a.title = "" ∧
      a.thumbnail = "" ∧ a.publication_date = "" ∧ a.last_updated_date = "" ∧
      a.author = "" ∧ a.video_duration = "" ∧ a.description = "" ∧
      a.lang = "" ∧ a.lite_url = "" ∧ a.word_count = 0 ∧ a.classes = [] ∧
      a.keywords = [""] := by
  obtain ⟨m, ps⟩ := page
  cases h
  exact ⟨_, rfl, rfl, rfl, rfl, rfl, rfl, rfl, rfl, rfl, rfl, rfl, rfl, rfl, rfl⟩

/-- Witness for C1 at a concrete page. -/
theorem c1_empty_metadata_defaults_witness :
    ∃ a, scrape "u" pageEmptyMeta = some a ∧ a.post_id = "" ∧ a.title = "" ∧
      a.thumbnail = "" ∧ a.publication_date = "" ∧ a.last_updated_date = "" ∧
      a.author = "" ∧ a.video_duration = "" ∧ a.description = "" ∧
      a.lang = "" ∧ a.lite_url = "" ∧ a.word_count = 0 ∧ a.classes = [] ∧
      a.keywords = [""] :=
  c1_empty_metadata_defaults "u" pageEmptyMeta rfl

/-- C2: across a whole run with any environment and configured cap, the
global article counter never exceeds the cap; every article fetch was
initiated while the counter was strictly below the cap (so no new fetch
once it is reached); and when the run exits normally the accumulator is
empty and every accumulated article was handed to a flush, the flushed
totals summing to the final counter. -/
theorem c2_global_cap (env : Env) (cap : Nat) :
    (runMain env cap).count ≤ cap ∧
    (∀ p ∈ (runMain env cap).fetches, p.2 < cap) ∧
    ((runMain env cap).err = false →
      (runMain env cap).acc = [] ∧
      flushSum (runMain env cap).flushes = (runMain env cap).count) := by
  unfold runMain
  exact sitemapLoop_inv env cap _ 0 [] [] [] (Nat.zero_le cap) rfl
    (fun p hp => absurd hp (List.not_mem_nil p))

/-- Witness for C2 at a concrete environment and the default cap. -/
theorem c2_global_cap_witness :
    (runMain envOK max_articles).acc = [] ∧
    flushSum (runMain envOK max_articles).flushes = (runMain envOK max_articles).count :=
  (c2_global_cap envOK max_articles).2.2 (by decide)

/-- C3: on a page whose metadata has a `word_count` value that does not
parse as an integer, `scrape` returns `None` (the extraction-error
outcome: no Article, no default wordCount), and the orchestrator inner
loop skips that page — counter and accumulator unchanged — and goes on
with the remaining URLs instead of aborting. -/
theorem c3_bad_word_count (env : Env) (cap : Nat) (url s : String)
    (page : Page) (md : Metadata) (rest : List String) (st : InnerState)
    (hm : page.metadata = some md) (hw : md.word_count = some (.str s))
    (hs : pyIntOfString s = none) (hf : env.articlePage url = some page)
    (hc : st.count < cap) :
    scrape url page = none ∧
    articleLoop env cap (url :: rest) st =
      articleLoop env cap rest ⟨st.count, st.acc, st.fetches ++ [(url, st.count)]⟩ := by
  have hsc : scrape url page = none := by
    obtain ⟨m, ps⟩ := page
    cases hm
    simp [scrape, hw, pyInt, hs]
  refine ⟨hsc, ?_⟩
  simp only [articleLoop]
  rw [if_neg (Nat.not_le.mpr hc), hf]
  simp [hsc]

/-- Witness for C3 at a concrete page and environment. -/
theorem c3_bad_word_count_witness :
    scrape "u1" ⟨some mdBadWC, []⟩ = none ∧
    articleLoop env3 10000 ["u1"] ⟨0, [], []⟩
      = articleLoop env3 10000 [] ⟨0, [], [("u1", 0)]⟩ :=
  c3_bad_word_count env3 10000 "u1" "12a3" ⟨some mdBadWC, []⟩ mdBadWC [] ⟨0, [], []⟩
    rfl rfl (by decide) rfl (by decide)

/-- C4: evaluating the fetcher on a URL whose every HTTP attempt raises
a transport error: the code makes exactly one attempt and returns `[]`
immediately — the `except` clause inside the body catches the
`RequestException`, so the retry decorator (the declared policy of 3
attempts with exponential backoff) never fires and no typed fetch error
reaches the caller. -/
theorem c4_no_retry_eval :
    get_monthly_sitemaps (fun _ => .requestExc) = (some [], 1) := rfl

/-- C5: for every parsed document, `parseLocations` returns exactly the
text contents of the `<loc>` elements in document order (hence exactly
N strings for a document with N such elements), and it returns the
empty sequence — never an error, the function being total — on any
document with no `<loc>` elements, which includes everything tolerant
parsing produces from empty or malformed input. -/
theorem c5_parse_locations (doc : Node) :
    parseLocations doc = locTexts doc ∧
    (parseLocations doc).length = (findAll "loc" doc).length ∧
    (findAll "loc" doc = [] → parseLocations doc = []) := by
  refine ⟨findAll_map_text doc, by simp [parseLocations], ?_⟩
  intro h
  simp [parseLocations, h]

/-- Witness for C5 at a concrete document without `<loc>` elements. -/
theorem c5_parse_locations_witness : parseLocations (locDoc []) = [] :=
  (c5_parse_locations (locDoc [])).2.2 rfl

/-- C6: every batch the run hands to `save_to_json` is exactly the list
of articles collected for its own monthly sitemap starting from an
empty accumulator — flushing clears the accumulator, so no batch ever
contains an article produced before the previous flush. -/
theorem c6_flush_batches (env : Env) (cap : Nat) :
    ∀ f ∈ (runMain env cap).flushes,
      f.batch ≠ [] ∧ f.batch = monthScrapes env cap f.sitemap f.startCount := by
  unfold runMain
  exact sitemapLoop_flushes env cap _ 0 [] [] []
    (fun f hf => absurd hf (List.not_mem_nil f))

/-- Witness for C6 at a concrete run and its second flush event. -/
theorem c6_flush_batches_witness :
    fOK.batch ≠ [] ∧ fOK.batch = monthScrapes envOK 10000 fOK.sitemap fOK.startCount :=
  c6_flush_batches envOK 10000 fOK (by decide)

/-- C7, counterexample: on the URL `a-2024-09.xml.xml` the code
(`replace(".xml", "")`, which removes every occurrence) yields month
`09`, while the claimed derivation (strip one `.xml` suffix) yields
`09.xml` — so the claim, which requires the suffix-strip reading, fails. -/
theorem c7_counterexample :
    monthKeyOfUrl "a-2024-09.xml.xml" = some ("2024", "09") ∧
    monthKeyClaim "a-2024-09.xml.xml" = some ("2024", "09.xml") ∧
    monthKeyOfUrl "a-2024-09.xml.xml" ≠ monthKeyClaim "a-2024-09.xml.xml" := by
  refine ⟨rfl, rfl, ?_⟩
  decide

/-- C7, amended: for every monthly sitemap URL the month key is derived
by splitting on `-` and taking the second-to-last token as the year and
the last token with every occurrence of `.xml` removed (Python
`str.replace` semantics, not a single suffix strip) as the month, with
no further normalization; with fewer than two tokens the derivation
raises `IndexError`. -/
theorem c7_month_key (url : String) : monthKeyOfUrl url = monthKeyAmended url := by
  unfold monthKeyOfUrl monthKeyAmended
  cases h : (pySplit url '-').reverse with
  | nil =>
    have hnil : pySplit url '-' = [] := by
      have h2 := congrArg List.reverse h
      simpa using h2
    simp [hnil]
  | cons m t =>
    cases t with
    | nil =>
      have hone : pySplit url '-' = [m] := by
        have h2 := congrArg List.reverse h
        simpa using h2
      simp [hone]
    | cons y t2 =>
      have hlen : 2 ≤ (pySplit url '-').length := by
        have hx : (pySplit url '-').reverse.length = (m :: y :: t2).length := by rw [h]
        simp at hx
        omega
      rw [if_neg (by omega)]
      rw [getD_penult_rev "" m y _ _ h, getD_last_rev "" m _ _ (by rw [h])]

/-- C8, counterexample: in an environment where creating the output
directory fails, a run with two monthly sitemaps of one successful
article each aborts with an uncaught exception during the first flush:
`os.makedirs` runs outside the `try` block of `save_to_json`, so this
batch-write failure is not handled locally — the run ends with the cap
unreached and the second sitemap never fetched. -/
theorem c8_counterexample :
    (runMain env8 max_articles).err = true ∧
    (runMain env8 max_articles).count = 1 ∧
    (runMain env8 max_articles).written = [] ∧
    (runMain env8 max_articles).fetches = [("u1", 0)] := by
  decide

/-- C8, amended: fetch failures, extraction failures and failures of
the JSON file write itself are all handled locally and never abort the
run: provided directory creation succeeds and every flushed sitemap URL
splits on `-` into at least two tokens, no exception propagates out of
the crawl loop, so the run ends only by reaching the cap or exhausting
the sitemap index. A directory-creation failure, by contrast, aborts
the run (see the counterexample). -/
theorem c8_error_isolation (env : Env) (cap : Nat)
    (hmk : env.makedirsOk = true)
    (hsms : ∀ sm ∈ get_monthly_sitemaps_result env, 2 ≤ (pySplit sm '-').length) :
    (runMain env cap).err = false := by
  unfold runMain
  exact sitemapLoop_no_err env cap _ 0 [] [] [] hmk hsms

/-- Witness for C8 at a concrete environment. -/
theorem c8_error_isolation_witness : (runMain envOK 10000).err = false :=
  c8_error_isolation envOK 10000 rfl (by decide)

/-- C9, counterexample: on a page with the single paragraph `a` the
claim says `content` is `a` (single newlines between consecutive
paragraphs only); the code produces `a` followed by a newline, because
it appends a newline after every paragraph including the last. -/
theorem c9_counterexample :
    (scrape "u" ⟨some emptyMetadata, ["a"]⟩).map Article.content = some "a\n" ∧
    (scrape "u" ⟨some emptyMetadata, ["a"]⟩).map Article.content ≠ some "a" := by
  constructor
  · rfl
  · decide

/-- C9, amended: whenever `extract` succeeds, `content` equals the
concatenation, in document order, of the text of each paragraph
followed by a newline — i.e. a newline separates consecutive paragraphs
and a trailing newline follows the last one. -/
theorem c9_content_trailing_newline (url : String) (page : Page) (a : Article)
    (h : scrape url page = some a) : a.content = paragraphsJoined page.paragraphs := by
  obtain ⟨m, ps⟩ := page
  simp only [scrape] at h
  cases hw : pyInt ((m.getD emptyMetadata).word_count.getD (.num 0)) with
  | none => rw [hw] at h; cases h
  | some wc =>
    rw [hw] at h
    injection h with h
    subst h
    simp [foldl_newline, paragraphsJoined]

/-- Witness for C9 at a concrete page. -/
theorem c9_content_trailing_newline_witness :
    (artWC5 "u1").content = paragraphsJoined ["x"] :=
  c9_content_trailing_newline "u1" ⟨some mdWC5, ["x"]⟩ (artWC5 "u1") (by decide)

/-- C10: two pages with equal embedded metadata objects that both
extract successfully yield the same wordCount regardless of their
paragraphs; the wordCount is exactly the integer parse of the metadata
`word_count` value (0 when the key is absent) — the word count computed
from the page body is discarded. -/
theorem c10_word_count_from_metadata (u1 u2 : String) (p1 p2 : Page)
    (a1 a2 : Article) (hm : p1.metadata = p2.metadata)
    (h1 : scrape u1 p1 = some a1) (h2 : scrape u2 p2 = some a2) :
    a1.word_count = a2.word_count ∧
    pyInt ((p1.metadata.getD emptyMetadata).word_count.getD (.num 0))
      = some a1.word_count := by
  obtain ⟨m1, ps1⟩ := p1; obtain ⟨m2, ps2⟩ := p2
  simp only [Page.metadata] at hm
  subst hm
  simp only [scrape] at h1 h2
  cases hw : pyInt ((m1.getD emptyMetadata).word_count.getD (.num 0)) with
  | none => rw [hw] at h1; cases h1
  | some wc =>
    rw [hw] at h1; rw [hw] at h2
    injection h1 with h1; injection h2 with h2
    subst h1; subst h2
    exact ⟨rfl, by simp [hw]⟩

/-- Witness for C10 at two concrete pages with equal metadata and
different paragraphs. -/
theorem c10_word_count_from_metadata_witness :
    (artWC5 "u1").word_count = artNoParas.word_count ∧
    pyInt (((⟨some mdWC5, ["x"]⟩ : Page).metadata.getD emptyMetadata).word_count.getD
      (.num 0)) = some (artWC5 "u1").word_count :=
  c10_word_count_from_metadata "u1" "u2" ⟨some mdWC5, ["x"]⟩ ⟨some mdWC5, []⟩
    (artWC5 "u1") artNoParas rfl (by decide) (by decide)

end Scrape
